import Mathlib

/-!
Shallow embedding of `src/pylgr/optimize/_slsqp.py` (the PyLGR SLSQP
orchestration layer): constraint triage, bounds handling, workspace sizing,
the mode-driven iteration protocol, result assembly and KKT-multiplier
extraction.  The dense SQP kernel itself (`scipy.optimize._slsqp.slsqp`) is
an external collaborator; a driver run is therefore quantified over an
arbitrary sequence of kernel outputs, one per kernel call.  Floating-point
values are modelled as rationals; the finite-difference Jacobian service is
an abstract parameter.
-/

/-- Output of one call to the external `slsqp` kernel: the (possibly
mutated) iterate `x`, the reported `mode`, the major-iteration counter
`majiter`, the real workspace `w`, and the integer state cell `n1` (the
driver reuses the Python variable `n1` as a kernel state cell at line 206
and reads it back during multiplier extraction at line 252). -/
structure KernelOut where
  x : List ℚ
  mode : ℤ
  majiter : ℤ
  w : List ℚ
  n1 : ℤ
  deriving DecidableEq

/-- Observable evaluation events of the driver: objective (`wrapped_fun`),
gradient (`wrapped_grad`), stacked constraint residuals
(`_eval_constraint`), stacked constraint normals (`_eval_con_normals`),
each recording the iterate passed to the evaluator, and kernel calls
recording the mode the kernel reported. -/
inductive Ev where
  | evalF (x : List ℚ)
  | evalG (x : List ℚ)
  | evalC (x : List ℚ)
  | evalA (x : List ℚ)
  | kern (mode : ℤ)
  deriving DecidableEq

/-- The Python exceptions `_minimize_slsqp` can raise before reaching the
kernel, in source order: the numpy broadcast `ValueError` from `np.clip`
at line 60, the constraint-triage errors of lines 72/80/84, the numpy
`ValueError` from `np.zeros` at line 144 when the computed `len_w` is
negative, and the bounds-validation errors of lines 159/166. -/
inductive SlsqpError where
  | broadcastValueError
  | keyErrorNoType (ic : ℕ)
  | valueErrorUnknownType (ic : ℕ)
  | valueErrorNoFun (ic : ℕ)
  | negativeSizeValueError
  | indexErrorBoundsLength
  | valueErrorBadBounds
  deriving DecidableEq

/-- A user constraint specification (one entry of the `constraints`
argument): the `type` key if present, the residual function `fun` if
present (already composed with `np.atleast_1d`, so it returns a vector),
and the optional analytic Jacobian `jac`. -/
structure ConSpec where
  ctype : Option String
  f : Option (List ℚ → List ℚ)
  jac : Option (List ℚ → List (List ℚ))

/-- A triaged constraint as stored in `cons['eq']` / `cons['ineq']`
(line 108): residual function and Jacobian function, with the extra
positional arguments already applied. -/
structure TriCon where
  f : List ℚ → List ℚ
  jac : List ℚ → List (List ℚ)

/-- The dictionary `cons = {'eq': (), 'ineq': ()}` after triage (lines
66-110): two ordered groups of triaged constraints. -/
structure ConGroups where
  eq : List TriCon
  ineq : List TriCon

/-- The `constraints` argument: a single constraint dict or a sequence of
them (line 63: `if isinstance(constraints, dict): constraints =
(constraints,)`). -/
inductive ConstraintsArg where
  | single (c : ConSpec)
  | seq (cs : List ConSpec)

/-- Line 63-64: a single dict is wrapped into a one-element tuple. -/
def normalizeConstraintsArg : ConstraintsArg → List ConSpec
  | .single c => [c]
  | .seq cs => cs

/-- One component of `np.clip(x, lower, upper)` = `minimum(maximum(x,
lower), upper)`, where an absent bound is `∓inf` (via `old_bound_to_new`)
and hence a no-op on that side. -/
def clipComp (b : Option ℚ × Option ℚ) (x : ℚ) : ℚ :=
  let lo := match b.1 with
    | some l => max x l
    | none => x
  match b.2 with
  | some u => min lo u
  | none => lo

/-- `np.clip(x, xl, xu)` for 1-D arrays with numpy broadcasting: equal
lengths are zipped; a length-1 `x` is broadcast over the bounds (the
result then has the bounds' length); a length-1 bounds list is broadcast
over `x`; any other length mismatch raises a numpy `ValueError`
(`none`). -/
def npClip (x : List ℚ) (bnds : List (Option ℚ × Option ℚ)) : Option (List ℚ) :=
  if x.length = bnds.length then
    some (List.zipWith (fun xi b => clipComp b xi) x bnds)
  else if hx : x.length = 1 then
    some (bnds.map fun b => clipComp b (x.get ⟨0, by omega⟩))
  else if hb : bnds.length = 1 then
    some (x.map fun xi => clipComp (bnds.get ⟨0, by omega⟩) xi)
  else
    none

/-- Lines 54-60: with no bounds (or an empty bounds list) the clip is
against `(-inf, inf)` and is the identity; otherwise the initial guess is
clipped (with broadcasting) against the new-style bounds. -/
def clipPhase (x0 : List ℚ) (bounds : Option (List (Option ℚ × Option ℚ))) :
    Option (List ℚ) :=
  match bounds with
  | none => some x0
  | some [] => some x0
  | some bnds => npClip x0 bnds

/-- Lines 66-110: triage of the constraint specifications, in order, with
`ic` the running index used in error messages.  A missing `type` raises
`KeyError` (line 72); a lower-cased type outside `{'eq','ineq'}` raises
`ValueError` (line 80); a missing `fun` raises `ValueError` (line 84);
a missing `jac` is synthesized from the residual function by the external
finite-difference service `fdJac` (lines 87-105).  Registration order is
preserved within each group. -/
def triageCons (ic : ℕ) (specs : List ConSpec)
    (fdJac : (List ℚ → List ℚ) → List ℚ → List (List ℚ)) :
    Except SlsqpError ConGroups :=
  match specs with
  | [] => .ok ⟨[], []⟩
  | con :: rest =>
    match con.ctype with
    | none => .error (.keyErrorNoType ic)
    | some s =>
      let t := s.toLower
      if t = "eq" ∨ t = "ineq" then
        match con.f with
        | none => .error (.valueErrorNoFun ic)
        | some fn =>
          let cj := match con.jac with
            | some j => j
            | none => fdJac fn
          match triageCons (ic + 1) rest fdJac with
          | .error e => .error e
          | .ok gs =>
            if t = "eq" then .ok ⟨⟨fn, cj⟩ :: gs.eq, gs.ineq⟩
            else .ok ⟨gs.eq, ⟨fn, cj⟩ :: gs.ineq⟩
      else .error (.valueErrorUnknownType ic)

/-- Line 126: the residual dimension of each equality constraint at the
(clipped) initial iterate, in registration order. -/
def eqDims (cons : ConGroups) (x : List ℚ) : List ℕ :=
  cons.eq.map fun c => (c.f x).length

/-- Line 127: the residual dimension of each inequality constraint at the
(clipped) initial iterate, in registration order. -/
def ineqDims (cons : ConGroups) (x : List ℚ) : List ℕ :=
  cons.ineq.map fun c => (c.f x).length

/-- `_eval_constraint` (lines 285-303): all equality residuals
concatenated in registration order, then all inequality residuals, with
an empty group contributing `np.zeros(0)`. -/
def eval_constraint (x : List ℚ) (cons : ConGroups) : List ℚ :=
  let c_eq := if cons.eq.isEmpty then [] else (cons.eq.map fun con => con.f x).flatten
  let c_ieq := if cons.ineq.isEmpty then [] else (cons.ineq.map fun con => con.f x).flatten
  c_eq ++ c_ieq

/-- `_eval_con_normals` (lines 305-328): the equality Jacobians stacked by
rows in registration order (a `(meq, n)` zero block when the group is
empty), then the inequality Jacobians likewise; with zero total
constraints the stack is replaced by a `(la, n)` zero block; finally one
zero column is appended on the right. -/
def eval_con_normals (x : List ℚ) (cons : ConGroups) (la n m meq mieq : ℕ) :
    List (List ℚ) :=
  let a_eq := if cons.eq.isEmpty then List.replicate meq (List.replicate n 0)
    else (cons.eq.map fun con => con.jac x).flatten
  let a_ieq := if cons.ineq.isEmpty then List.replicate mieq (List.replicate n 0)
    else (cons.ineq.map fun con => con.jac x).flatten
  let a := if m = 0 then List.replicate la (List.replicate n 0) else a_eq ++ a_ieq
  a.map fun row => row ++ [0]

/-- Lines 138-142: the size of the kernel's real workspace, computed over
arbitrary-precision integers exactly as the Python source writes it
(`//` is floor division; `(n+1)*n` is even, so the quotient is exact). -/
def len_w (n m meq : ℕ) : ℤ :=
  let n1 : ℤ := (n : ℤ) + 1
  let mineq : ℤ := (m : ℤ) - (meq : ℤ) + n1 + n1
  (3 * n1 + (m : ℤ)) * (n1 + 1) + (n1 - (meq : ℤ) + 1) * (mineq + 2)
    + 2 * mineq + (n1 + mineq) * (n1 - (meq : ℤ)) + 2 * (meq : ℤ) + n1
    + (((n : ℤ) + 1) * (n : ℤ)).fdiv 2 + 2 * (m : ℤ) + 3 * (n : ℤ)
    + 3 * n1 + 1

/-- Line 143: the size `mineq` of the kernel's integer workspace. -/
def len_jw (n m meq : ℕ) : ℤ :=
  (m : ℤ) - (meq : ℤ) + ((n : ℤ) + 1) + ((n : ℤ) + 1)

/-- Lines 147-173: bounds decomposition and validation against the
variable count `n` (which the driver takes from the clipped iterate,
line 136).  A nonempty bounds list whose length differs from `n` raises
`IndexError` (line 159); otherwise a pair with both bounds present and
`lower > upper` raises `ValueError` (line 166; absent bounds become `nan`
and never compare true). -/
def boundsCheck (bounds : Option (List (Option ℚ × Option ℚ))) (n : ℕ) :
    Except SlsqpError Unit :=
  match bounds with
  | none => .ok ()
  | some [] => .ok ()
  | some bnds =>
    if bnds.length ≠ n then .error .indexErrorBoundsLength
    else if bnds.any badPair then .error .valueErrorBadBounds
    else .ok ()
where
  /-- `bnds[:, 0] > bnds[:, 1]` for one pair, false unless both are present. -/
  badPair : Option ℚ × Option ℚ → Bool
  | (some l, some u) => decide (u < l)
  | _ => false

/-- The `exit_modes` dictionary (lines 112-122). -/
def exit_modes (mode : ℤ) : Option String :=
  if mode = -1 then some ("Gradient evaluation required (g & a)")
  else if mode = 0 then some ("Optimization terminated successfully")
  else if mode = 1 then some ("Function evaluation required (f & c)")
  else if mode = 2 then some ("More equality constraints than independent variables")
  else if mode = 3 then some ("More than 3*n iterations in LSQ subproblem")
  else if mode = 4 then some ("Inequality constraints incompatible")
  else if mode = 5 then some ("Singular matrix E in LSQ subproblem")
  else if mode = 6 then some ("Singular matrix C in LSQ subproblem")
  else if mode = 7 then some ("Rank-deficient equality constraint subproblem HFTI")
  else if mode = 8 then some ("Positive directional derivative for linesearch")
  else if mode = 9 then some ("Iteration limit reached")
  else none

/-- Line 43 and line 187: the major-iteration budget stored into the
kernel's mutable `majiter` cell before the first call is `maxiter - 1`. -/
def initialMajiter (maxiter : ℤ) : ℤ := maxiter - 1

/-- The re-evaluation events of one loop body (lines 229-235): objective
and constraint residuals when the kernel reported mode `+1`, gradient and
normals when it reported mode `-1`, nothing otherwise, at the
kernel-updated iterate. -/
def loopEvs (o : KernelOut) : List Ev :=
  (if o.mode = 1 then [Ev.evalF o.x, Ev.evalC o.x] else []) ++
    (if o.mode = -1 then [Ev.evalG o.x, Ev.evalA o.x] else [])

/-- The objective value after one loop body: re-evaluated at the
kernel-updated iterate when mode is `+1` (line 230), unchanged
otherwise. -/
def loopFx (f : List ℚ → ℚ) (o : KernelOut) (fx : ℚ) : ℚ :=
  if o.mode = 1 then f o.x else fx

/-- Result of the `while 1` loop of lines 222-247: the events it emitted,
the final objective value, and the final kernel output (iterate, mode,
majiter, workspace, `n1` cell). -/
structure LoopRes where
  evs : List Ev
  fx : ℚ
  out : KernelOut

/-- The `while 1` loop (lines 222-247) against the abstract kernel: call
the kernel (call index `k`), re-evaluate according to the reported mode,
and exit exactly when `abs(mode) != 1` (line 244).  `fuel` bounds the
number of further iterations so the model is total; the driver theorems
quantify over all fuels. -/
def slsqpLoop (f : List ℚ → ℚ) (kernel : ℕ → KernelOut) :
    ℕ → ℕ → ℚ → LoopRes
  | 0, k, fx =>
    let o := kernel k
    ⟨Ev.kern o.mode :: loopEvs o, loopFx f o fx, o⟩
  | fuel + 1, k, fx =>
    let o := kernel k
    if o.mode.natAbs = 1 then
      let r := slsqpLoop f kernel fuel (k + 1) (loopFx f o fx)
      ⟨Ev.kern o.mode :: (loopEvs o ++ r.evs), r.fx, r.out⟩
    else
      ⟨Ev.kern o.mode :: loopEvs o, loopFx f o fx, o⟩

/-- Result of the iteration driver (lines 184-247): the full event trace
(priming then loop), the final objective value, the final kernel output,
and the major-iteration budget `majiter0` that was placed into the
kernel's mutable state before the first call (lines 43 and 187). -/
structure DriverRes where
  evs : List Ev
  fx : ℚ
  out : KernelOut
  majiter0 : ℤ

/-- The iteration driver: mode is zero on entry, so objective, gradient,
constraint residuals and constraint normals are all evaluated at the
starting iterate before the first kernel call (lines 214-220), then the
loop runs (lines 222-247). -/
def runDriver (f : List ℚ → ℚ) (x : List ℚ) (kernel : ℕ → KernelOut)
    (it : ℤ) (fuel : ℕ) : DriverRes :=
  let fx := f x
  let r := slsqpLoop f kernel fuel 0 fx
  ⟨[Ev.evalF x, Ev.evalG x, Ev.evalC x, Ev.evalA x] ++ r.evs, r.fx, r.out, it⟩

/-- The slicing loop of lines 260-267: walk a residual-dimension list,
cutting consecutive spans `_kkt_mult[w_ind : w_ind + dim]` off the
multiplier vector and advancing `w_ind`.  Returns the spans and the final
`w_ind`. -/
def kktWalk (mult : List ℚ) (wInd : ℕ) (cv : List ℕ) : List (List ℚ) × ℕ :=
  match cv with
  | [] => ([], wInd)
  | dim :: rest =>
    let span := (mult.drop wInd).take dim
    let r := kktWalk mult (wInd + dim) rest
    (span :: r.1, r.2)

/-- The extracted KKT multipliers: one ordered list of per-constraint
multiplier vectors per constraint kind. -/
structure KKTMultiplier where
  eq : List (List ℚ)
  ineq : List (List ℚ)
  deriving DecidableEq

/-- Lines 249-267: offsets into the kernel's real workspace (`im = 1`,
`il = im + la`, `ix = il + (n1*n)//2 + 1`, `ir = ix + n - 1`, with `n1`
the kernel-written state cell), the `m`-length multiplier slice
`w[ir : ir + m]`, and its partition into per-constraint vectors, first
the equality group then the inequality group, each walked in registration
order over its recorded residual dimensions. -/
def extractKKT (w : List ℚ) (la n : ℕ) (n1 : ℤ) (m : ℕ)
    (meq_cv mieq_cv : List ℕ) : KKTMultiplier :=
  let im : ℤ := 1
  let il : ℤ := im + (la : ℤ)
  let ix : ℤ := il + (n1 * (n : ℤ)).fdiv 2 + 1
  let ir : ℤ := ix + (n : ℤ) - 1
  let mult := (w.drop ir.toNat).take m
  let keq := kktWalk mult 0 meq_cv
  let kineq := kktWalk mult keq.2 mieq_cv
  ⟨keq.1, kineq.1⟩

/-- The `OptimizeResult` record assembled at lines 277-282, restricted to
the fields the orchestration layer itself determines: final iterate,
final objective value, iteration count, terminal status, status message
(`exit_modes[int(mode)]`), success flag (`mode == 0`) and the KKT
multiplier mapping. -/
structure SlsqpResult where
  x : List ℚ
  fx : ℚ
  nit : ℤ
  status : ℤ
  message : Option String
  success : Bool
  kkt : KKTMultiplier
  deriving DecidableEq

/-- `_minimize_slsqp` (lines 13-282) against the abstract kernel: clip the
initial guess (line 60), triage the constraints (lines 62-110), measure
the residual dimensions by evaluating each constraint at the clipped
iterate (lines 126-127, emitting one residual-evaluation event each),
compute the workspace sizes (lines 138-145, where `np.zeros` rejects a
negative `len_w`), validate the bounds (lines 147-173), run the primed
iteration loop (lines 176-247), and extract the KKT multipliers from the
final workspace (lines 249-267).  Returns the events that occurred
together with either the first exception raised or the assembled
result. -/
def minimizeSlsqp (f : List ℚ → ℚ) (x0 : List ℚ)
    (bounds : Option (List (Option ℚ × Option ℚ)))
    (constraints : ConstraintsArg) (maxiter : ℤ)
    (fdJac : (List ℚ → List ℚ) → List ℚ → List (List ℚ))
    (kernel : ℕ → KernelOut) (fuel : ℕ) :
    List Ev × Except SlsqpError SlsqpResult :=
  match clipPhase x0 bounds with
  | none => ([], .error .broadcastValueError)
  | some x =>
    match triageCons 0 (normalizeConstraintsArg constraints) fdJac with
    | .error e => ([], .error e)
    | .ok cons =>
      let meq_cv := eqDims cons x
      let mieq_cv := ineqDims cons x
      let dimEvs := (cons.eq ++ cons.ineq).map fun _ => Ev.evalC x
      let meq := meq_cv.sum
      let m := meq + mieq_cv.sum
      let la := max 1 m
      let n := x.length
      if len_w n m meq < 0 then (dimEvs, .error .negativeSizeValueError)
      else
        match boundsCheck bounds n with
        | .error e => (dimEvs, .error e)
        | .ok _ =>
          let r := runDriver f x kernel (initialMajiter maxiter) fuel
          (dimEvs ++ r.evs,
            .ok { x := r.out.x, fx := r.fx, nit := r.out.majiter,
                  status := r.out.mode, message := exit_modes r.out.mode,
                  success := decide (r.out.mode = 0),
                  kkt := extractKKT r.out.w la n r.out.n1 m meq_cv mieq_cv })

/-- The iterate an evaluation event was given; `none` for kernel calls. -/
def evPoint : Ev → Option (List ℚ)
  | .evalF x => some x
  | .evalG x => some x
  | .evalC x => some x
  | .evalA x => some x
  | .kern _ => none

/-- Event is an objective evaluation. -/
def isEvalF : Ev → Bool
  | .evalF _ => true
  | _ => false

/-- Event is a gradient evaluation. -/
def isEvalG : Ev → Bool
  | .evalG _ => true
  | _ => false

/-- Event is a constraint-residual evaluation. -/
def isEvalC : Ev → Bool
  | .evalC _ => true
  | _ => false

/-- Event is a constraint-normals evaluation. -/
def isEvalA : Ev → Bool
  | .evalA _ => true
  | _ => false

/-- Event is a kernel call. -/
def isKern : Ev → Bool
  | .kern _ => true
  | _ => false

/-- Event is a kernel call that reported the given mode. -/
def isKernMode (mo : ℤ) : Ev → Bool
  | .kern m2 => decide (m2 = mo)
  | _ => false

/-- A constraint specification on which the triage of lines 66-110
raises: missing `type`, lower-cased `type` outside `{'eq','ineq'}`, or
missing `fun`. -/
def malformedSpec (c : ConSpec) : Bool :=
  match c.ctype with
  | none => true
  | some s => (!(s.toLower = "eq" || s.toLower = "ineq")) || c.f.isNone

/-- The errors of the spec's `ConfigurationError` class: the three
constraint-triage failures. -/
def isConfigError : SlsqpError → Bool
  | .keyErrorNoType _ => true
  | .valueErrorUnknownType _ => true
  | .valueErrorNoFun _ => true
  | _ => false

/-- Whether an `Except` value is a success. -/
def isOkE {ε α : Type} : Except ε α → Bool
  | .ok _ => true
  | .error _ => false

/-- Fixture: a trivial objective. -/
def f0 : List ℚ → ℚ := fun _ => 0

/-- Fixture: a trivial finite-difference service. -/
def fd0 : (List ℚ → List ℚ) → List ℚ → List (List ℚ) := fun _ _ => []

/-- Fixture: a kernel that immediately reports successful termination. -/
def kern0 : ℕ → KernelOut := fun _ => ⟨[], 0, 0, [], 0⟩

/-- Fixture: a kernel that immediately reports terminal failure mode 2. -/
def kern2 : ℕ → KernelOut := fun _ => ⟨[], 2, 5, [], 0⟩

/-- Fixture: the result record of a run against `kern2`. -/
def resK2 : SlsqpResult :=
  { x := [], fx := 0, nit := 5, status := 2, message := exit_modes 2,
    success := false, kkt := ⟨[], []⟩ }

/-! ### Multiplier extraction: the partition produced by `kktWalk` -/

theorem kktWalk_len (mult : List ℚ) :
    ∀ (cv : List ℕ) (s : ℕ), (kktWalk mult s cv).2 = s + cv.sum := by
  intro cv
  induction cv with
  | nil => intro s; simp [kktWalk]
  | cons d rest ih =>
    intro s
    simp only [kktWalk, ih (s + d), List.sum_cons]
    omega

theorem kktWalk_shapes (mult : List ℚ) :
    ∀ (cv : List ℕ) (s : ℕ), s + cv.sum ≤ mult.length →
      ((kktWalk mult s cv).1.map List.length = cv) ∧
      ((kktWalk mult s cv).1.flatten = (mult.drop s).take cv.sum) := by
  intro cv
  induction cv with
  | nil => intro s _; simp [kktWalk]
  | cons d rest ih =>
    intro s hs
    simp only [List.sum_cons] at hs
    obtain ⟨ih1, ih2⟩ := ih (s + d) (by omega)
    constructor
    · simp only [kktWalk, List.map_cons, ih1, List.length_take, List.length_drop]
      congr 1
      omega
    · simp only [kktWalk, List.flatten_cons, ih2, List.sum_cons]
      rw [List.take_add, List.drop_drop]

/-- Claim C1: after the iteration loop, the m-length multiplier slice is
partitioned into per-constraint vectors — the equality spans first and the
inequality spans second, both in registration order, each span's length
equal to the recorded residual dimension — and the spans are consecutive,
disjoint, and jointly recover the whole m-length slice, for every
registration order and every dimension list. -/
theorem kkt_partition (mult : List ℚ) (meq_cv mieq_cv : List ℕ)
    (h : mult.length = meq_cv.sum + mieq_cv.sum) :
    ((kktWalk mult 0 meq_cv).1.map List.length = meq_cv) ∧
    ((kktWalk mult (kktWalk mult 0 meq_cv).2 mieq_cv).1.map List.length = mieq_cv) ∧
    (((kktWalk mult 0 meq_cv).1 ++
        (kktWalk mult (kktWalk mult 0 meq_cv).2 mieq_cv).1).flatten = mult) ∧
    ((kktWalk mult (kktWalk mult 0 meq_cv).2 mieq_cv).2 =
      meq_cv.sum + mieq_cv.sum) := by
  have hlen1 : (kktWalk mult 0 meq_cv).2 = meq_cv.sum := by
    simpa using kktWalk_len mult meq_cv 0
  obtain ⟨a1, a2⟩ := kktWalk_shapes mult meq_cv 0 (by omega)
  obtain ⟨b1, b2⟩ := kktWalk_shapes mult mieq_cv meq_cv.sum (by omega)
  refine ⟨a1, ?_, ?_, ?_⟩
  · rw [hlen1]; exact b1
  · rw [List.flatten_append, a2, hlen1, b2, List.drop_zero, ← List.take_add,
      ← h, List.take_length]
  · rw [hlen1, kktWalk_len]

/-- Witness for C1 at a concrete multiplier slice and dimension lists. -/
theorem kkt_partition_witness :
    ((kktWalk [1, 2, 3] 0 [2]).1.map List.length = [2]) ∧
    ((kktWalk [1, 2, 3] (kktWalk [1, 2, 3] 0 [2]).2 [1]).1.map List.length = [1]) ∧
    (((kktWalk [1, 2, 3] 0 [2]).1 ++
        (kktWalk [1, 2, 3] (kktWalk [1, 2, 3] 0 [2]).2 [1]).1).flatten = [1, 2, 3]) ∧
    ((kktWalk [1, 2, 3] (kktWalk [1, 2, 3] 0 [2]).2 [1]).2 =
      [2].sum + [1].sum) :=
  kkt_partition [1, 2, 3] [2] [1] (by decide)

/-- Claim C3: with zero constraints, the stacked residual is empty and the
stacked normals matrix is the `(1, n+1)` zero matrix, for every `n ≥ 1`
and every point (the arguments `la = max 1 0`, `m = meq = mieq = 0` are
exactly what the driver computes for a constraint-free problem). -/
theorem zero_constraints_eval (x : List ℚ) (h : 1 ≤ x.length) :
    eval_constraint x ⟨[], []⟩ = [] ∧
    eval_con_normals x ⟨[], []⟩ (max 1 0) x.length 0 0 0 =
      [List.replicate (x.length + 1) 0] ∧
    (eval_con_normals x ⟨[], []⟩ (max 1 0) x.length 0 0 0).length = 1 ∧
    (∀ row ∈ eval_con_normals x ⟨[], []⟩ (max 1 0) x.length 0 0 0,
      row.length = x.length + 1 ∧ ∀ v ∈ row, v = 0) := by
  have hn : eval_con_normals x ⟨[], []⟩ (max 1 0) x.length 0 0 0 =
      [List.replicate (x.length + 1) 0] := by
    simp [eval_con_normals, List.replicate_succ']
  refine ⟨by simp [eval_constraint], hn, by rw [hn]; rfl, ?_⟩
  rw [hn]
  intro row hr
  have hrow : row = List.replicate (x.length + 1) 0 := by simpa using hr
  subst hrow
  exact ⟨List.length_replicate .., fun v hv => List.eq_of_mem_replicate hv⟩

/-- Witness for C3 at a concrete two-variable point. -/
theorem zero_constraints_eval_witness :
    eval_constraint [5, 7] ⟨[], []⟩ = [] ∧
    eval_con_normals [5, 7] ⟨[], []⟩ (max 1 0) ([(5:ℚ), 7]).length 0 0 0 =
      [List.replicate (([(5:ℚ), 7]).length + 1) 0] ∧
    (eval_con_normals [5, 7] ⟨[], []⟩ (max 1 0) ([(5:ℚ), 7]).length 0 0 0).length = 1 ∧
    (∀ row ∈ eval_con_normals [5, 7] ⟨[], []⟩ (max 1 0) ([(5:ℚ), 7]).length 0 0 0,
      row.length = ([(5:ℚ), 7]).length + 1 ∧ ∀ v ∈ row, v = 0) :=
  zero_constraints_eval [5, 7] (by decide)

/-! ### Workspace sizing: closed form and step differences of `len_w` -/

theorem len_w_double (n m meq : ℕ) :
    2 * len_w n m meq =
      17 * ((n : ℤ) + 1) ^ 2 - ((n : ℤ) + 1) + 6 * (m : ℤ) * ((n : ℤ) + 1)
        - 14 * ((n : ℤ) + 1) * (meq : ℤ) + 36 * ((n : ℤ) + 1) + 12 * (m : ℤ)
        - 4 * (m : ℤ) * (meq : ℤ) + 4 * (meq : ℤ) ^ 2 - 6 * (meq : ℤ) := by
  obtain ⟨r, hr⟩ := Int.even_mul_succ_self (n : ℤ)
  have hk : ((n : ℤ) + 1) * (n : ℤ) = 2 * r := by rw [mul_comm, hr]; ring
  simp only [len_w]
  rw [hk, Int.mul_fdiv_cancel_left _ (by norm_num)]
  linear_combination -hk

theorem len_w_step_m (n m meq : ℕ) :
    2 * len_w n (m + 1) meq - 2 * len_w n m meq =
      6 * (n : ℤ) + 18 - 4 * (meq : ℤ) := by
  have d1 := len_w_double n m meq
  have d2 := len_w_double n (m + 1) meq
  push_cast at d2
  linear_combination d2 - d1

theorem len_w_step_n (n m meq : ℕ) :
    2 * len_w (n + 1) m meq - 2 * len_w n m meq =
      34 * (n : ℤ) + 6 * (m : ℤ) - 14 * (meq : ℤ) + 86 := by
  have d1 := len_w_double n m meq
  have d2 := len_w_double (n + 1) m meq
  push_cast at d2
  linear_combination d2 - d1

/-- Counterexample to claim C4 as stated: with `meq ≤ m`, the real
workspace size `len_w` is not monotone in `m` (it drops from 34 to 32
between `(n,m,meq) = (1,7,7)` and `(1,8,7)`) nor in `n` (it drops from 15
to 14 between `(0,11,11)` and `(1,11,11)`). -/
theorem len_w_not_monotone :
    (7 : ℕ) ≤ 8 ∧ (11 : ℕ) ≤ 11 ∧
    len_w 1 8 7 < len_w 1 7 7 ∧ len_w 1 11 11 < len_w 0 11 11 := by decide

/-- Claim C4, amended: `len_jw` is monotone non-decreasing in both `n`
and `m`; `len_w` gains exactly `(6n + 18 - 4·meq)/2` per unit of `m` and
`(34n + 6m - 14·meq + 86)/2` per unit of `n`, so its one-step
monotonicity in `m` holds precisely when `2·meq ≤ 3n + 9` and in `n`
precisely when `7·meq ≤ 17n + 3m + 43`. -/
theorem workspace_size_monotonicity (n m meq : ℕ) (h : meq ≤ m) :
    (len_jw n m meq ≤ len_jw (n + 1) m meq) ∧
    (len_jw n m meq ≤ len_jw n (m + 1) meq) ∧
    ((len_w n m meq ≤ len_w n (m + 1) meq) ↔ 2 * meq ≤ 3 * n + 9) ∧
    ((len_w n m meq ≤ len_w (n + 1) m meq) ↔ 7 * meq ≤ 17 * n + 3 * m + 43) := by
  have sm := len_w_step_m n m meq
  have sn := len_w_step_n n m meq
  refine ⟨?_, ?_, ⟨fun hle => ?_, fun hc => ?_⟩, ⟨fun hle => ?_, fun hc => ?_⟩⟩
  · simp only [len_jw]; push_cast; linarith
  · simp only [len_jw]; push_cast; linarith
  · have hz : 4 * (meq : ℤ) ≤ 6 * (n : ℤ) + 18 := by linarith
    omega
  · have hn4 : 4 * meq ≤ 6 * n + 18 := by omega
    have hz : 4 * (meq : ℤ) ≤ 6 * (n : ℤ) + 18 := by exact_mod_cast hn4
    linarith
  · have hz : 14 * (meq : ℤ) ≤ 34 * (n : ℤ) + 6 * (m : ℤ) + 86 := by linarith
    omega
  · have hn4 : 14 * meq ≤ 34 * n + 6 * m + 86 := by omega
    have hz : 14 * (meq : ℤ) ≤ 34 * (n : ℤ) + 6 * (m : ℤ) + 86 := by
      exact_mod_cast hn4
    linarith

/-- Witness for the amended C4 at `(n, m, meq) = (2, 3, 1)`. -/
theorem workspace_size_monotonicity_witness :
    (len_jw 2 3 1 ≤ len_jw 3 3 1) ∧
    (len_jw 2 3 1 ≤ len_jw 2 4 1) ∧
    ((len_w 2 3 1 ≤ len_w 2 4 1) ↔ 2 * 1 ≤ 3 * 2 + 9) ∧
    ((len_w 2 3 1 ≤ len_w 3 3 1) ↔ 7 * 1 ≤ 17 * 2 + 3 * 3 + 43) :=
  workspace_size_monotonicity 2 3 1 (by decide)

/-- Claim C9: the major-iteration budget placed into the kernel's mutable
state before the first kernel call is `maxiter - 1`, not `maxiter`
(line 43 `iter = maxiter - 1`, stored at line 187). -/
theorem majiter_budget_init (maxiter : ℤ) (f : List ℚ → ℚ) (x : List ℚ)
    (kernel : ℕ → KernelOut) (fuel : ℕ) :
    (runDriver f x kernel (initialMajiter maxiter) fuel).majiter0 = maxiter - 1 ∧
    (runDriver f x kernel (initialMajiter maxiter) fuel).majiter0 ≠ maxiter := by
  refine ⟨rfl, ?_⟩
  show initialMajiter maxiter ≠ maxiter
  simp only [initialMajiter]
  omega

/-- Claim C10: a single constraint dict is accepted and treated exactly as
the one-element sequence containing it (lines 63-64). -/
theorem single_dict_constraints (f : List ℚ → ℚ) (x0 : List ℚ)
    (bounds : Option (List (Option ℚ × Option ℚ))) (c : ConSpec) (maxiter : ℤ)
    (fdJac : (List ℚ → List ℚ) → List ℚ → List (List ℚ))
    (kernel : ℕ → KernelOut) (fuel : ℕ) :
    minimizeSlsqp f x0 bounds (.single c) maxiter fdJac kernel fuel =
      minimizeSlsqp f x0 bounds (.seq [c]) maxiter fdJac kernel fuel := rfl

/-! ### The iteration loop: evaluation counts and exit characterization -/

theorem loopEvs_counts (o : KernelOut) :
    (loopEvs o).countP isEvalF = (if o.mode = 1 then 1 else 0) ∧
    (loopEvs o).countP isEvalC = (if o.mode = 1 then 1 else 0) ∧
    (loopEvs o).countP isEvalG = (if o.mode = -1 then 1 else 0) ∧
    (loopEvs o).countP isEvalA = (if o.mode = -1 then 1 else 0) ∧
    (loopEvs o).countP isKern = 0 := by
  by_cases h1 : o.mode = 1 <;> by_cases h2 : o.mode = -1 <;>
    simp [loopEvs, h1, h2, isEvalF, isEvalC, isEvalG, isEvalA, isKern,
      List.countP_append, List.countP_cons]

theorem loopEvs_countP_kernMode (o : KernelOut) (mo : ℤ) :
    (loopEvs o).countP (isKernMode mo) = 0 := by
  by_cases h1 : o.mode = 1 <;> by_cases h2 : o.mode = -1 <;>
    simp [loopEvs, h1, h2, isKernMode, List.countP_append, List.countP_cons]

theorem slsqpLoop_counts (f : List ℚ → ℚ) (kernel : ℕ → KernelOut) :
    ∀ (fuel k : ℕ) (fx : ℚ),
      ((slsqpLoop f kernel fuel k fx).evs.countP isEvalF =
        (slsqpLoop f kernel fuel k fx).evs.countP (isKernMode 1)) ∧
      ((slsqpLoop f kernel fuel k fx).evs.countP isEvalC =
        (slsqpLoop f kernel fuel k fx).evs.countP (isKernMode 1)) ∧
      ((slsqpLoop f kernel fuel k fx).evs.countP isEvalG =
        (slsqpLoop f kernel fuel k fx).evs.countP (isKernMode (-1))) ∧
      ((slsqpLoop f kernel fuel k fx).evs.countP isEvalA =
        (slsqpLoop f kernel fuel k fx).evs.countP (isKernMode (-1))) := by
  intro fuel
  induction fuel with
  | zero =>
    intro k fx
    obtain ⟨e1, e2, e3, e4, _⟩ := loopEvs_counts (kernel k)
    have k1 := loopEvs_countP_kernMode (kernel k) 1
    have k2 := loopEvs_countP_kernMode (kernel k) (-1)
    simp only [slsqpLoop, List.countP_cons, e1, e2, e3, e4, k1, k2,
      isEvalF, isEvalG, isEvalC, isEvalA, isKernMode]
    by_cases h1 : (kernel k).mode = 1 <;> by_cases h2 : (kernel k).mode = -1 <;>
      simp [h1, h2]
  | succ fuel ih =>
    intro k fx
    obtain ⟨e1, e2, e3, e4, _⟩ := loopEvs_counts (kernel k)
    have k1 := loopEvs_countP_kernMode (kernel k) 1
    have k2 := loopEvs_countP_kernMode (kernel k) (-1)
    obtain ⟨i1, i2, i3, i4⟩ :=
      ih (k + 1) (loopFx f (kernel k) fx)
    by_cases hm : (kernel k).mode.natAbs = 1
    · simp only [slsqpLoop, hm, if_true, List.countP_cons, List.countP_append,
        e1, e2, e3, e4, k1, k2, i1, i2, i3, i4, isEvalF, isEvalG, isEvalC,
        isEvalA, isKernMode]
      by_cases h1 : (kernel k).mode = 1 <;> by_cases h2 : (kernel k).mode = -1 <;>
        simp [h1, h2] <;> omega
    · simp only [slsqpLoop, hm, if_false, List.countP_cons, e1, e2, e3, e4,
        k1, k2, isEvalF, isEvalG, isEvalC, isEvalA, isKernMode]
      by_cases h1 : (kernel k).mode = 1 <;> by_cases h2 : (kernel k).mode = -1 <;>
        simp [h1, h2]

theorem slsqpLoop_exit (f : List ℚ → ℚ) (kernel : ℕ → KernelOut) :
    ∀ (fuel k : ℕ) (fx : ℚ), ∃ j : ℕ,
      1 ≤ j ∧ j ≤ fuel + 1 ∧
      (slsqpLoop f kernel fuel k fx).evs.countP isKern = j ∧
      (∀ i, i + 1 < j → ((kernel (k + i)).mode.natAbs = 1)) ∧
      (j ≤ fuel → ((slsqpLoop f kernel fuel k fx).out.mode.natAbs ≠ 1)) ∧
      ((slsqpLoop f kernel fuel k fx).out = kernel (k + (j - 1))) := by
  intro fuel
  induction fuel with
  | zero =>
    intro k fx
    obtain ⟨_, _, _, _, e5⟩ := loopEvs_counts (kernel k)
    refine ⟨1, le_refl 1, by omega, ?_, ?_, ?_, ?_⟩
    · simp [slsqpLoop, List.countP_cons, e5, isKern]
    · intro i hi
      omega
    · intro hcon
      omega
    · simp [slsqpLoop]
  | succ fuel ih =>
    intro k fx
    obtain ⟨_, _, _, _, e5⟩ := loopEvs_counts (kernel k)
    by_cases hm : (kernel k).mode.natAbs = 1
    · obtain ⟨j, hj1, hj2, hcnt, hrun, hterm, hout⟩ :=
        ih (k + 1) (loopFx f (kernel k) fx)
      refine ⟨j + 1, by omega, by omega, ?_, ?_, ?_, ?_⟩
      · simp only [slsqpLoop, hm, if_true, List.countP_cons,
          List.countP_append, e5, hcnt, isKern]
        simp
      · intro i hi
        match i with
        | 0 => simpa using hm
        | i + 1 =>
          have := hrun i (by omega)
          simpa [Nat.add_assoc, Nat.add_comm, Nat.add_left_comm] using this
      · intro hle
        have := hterm (by omega)
        simpa [slsqpLoop, hm] using this
      · have : (slsqpLoop f kernel (fuel + 1) k fx).out =
            (slsqpLoop f kernel fuel (k + 1) (loopFx f (kernel k) fx)).out := by
          simp [slsqpLoop, hm]
        rw [this, hout]
        congr 1
        omega
    · refine ⟨1, le_refl 1, by omega, ?_, ?_, ?_, ?_⟩
      · simp [slsqpLoop, hm, List.countP_cons, e5, isKern]
      · intro i hi
        omega
      · intro _
        simpa [slsqpLoop, hm] using hm
      · simp [slsqpLoop, hm]

/-- Claim C2: the driver evaluates objective, gradient, residuals and
normals unconditionally before the first kernel call (the trace starts
with the four priming events); in the loop it re-evaluates exactly
objective and residuals on mode `+1` and exactly gradient and normals on
mode `-1` (so each evaluation count is one priming evaluation plus one
per kernel call reporting the matching mode); and it exits exactly when
the reported mode has absolute value different from 1 (within the model's
fuel bound: every kernel call before the last reported `|mode| = 1`, and
unless the fuel was exhausted the last call reported `|mode| ≠ 1`),
trusting the kernel's mode exclusively. -/
theorem iteration_mode_protocol (f : List ℚ → ℚ) (x : List ℚ)
    (kernel : ℕ → KernelOut) (it : ℤ) (fuel : ℕ) :
    ((runDriver f x kernel it fuel).evs.take 4 =
      [Ev.evalF x, Ev.evalG x, Ev.evalC x, Ev.evalA x]) ∧
    ((runDriver f x kernel it fuel).evs.countP isEvalF =
      1 + (runDriver f x kernel it fuel).evs.countP (isKernMode 1)) ∧
    ((runDriver f x kernel it fuel).evs.countP isEvalC =
      1 + (runDriver f x kernel it fuel).evs.countP (isKernMode 1)) ∧
    ((runDriver f x kernel it fuel).evs.countP isEvalG =
      1 + (runDriver f x kernel it fuel).evs.countP (isKernMode (-1))) ∧
    ((runDriver f x kernel it fuel).evs.countP isEvalA =
      1 + (runDriver f x kernel it fuel).evs.countP (isKernMode (-1))) ∧
    (∃ j : ℕ, 1 ≤ j ∧ j ≤ fuel + 1 ∧
      (runDriver f x kernel it fuel).evs.countP isKern = j ∧
      (∀ i, i + 1 < j → ((kernel i).mode.natAbs = 1)) ∧
      (j ≤ fuel → ((runDriver f x kernel it fuel).out.mode.natAbs ≠ 1)) ∧
      ((runDriver f x kernel it fuel).out = kernel (j - 1))) := by
  obtain ⟨c1, c2, c3, c4⟩ := slsqpLoop_counts f kernel fuel 0 (f x)
  obtain ⟨j, hj1, hj2, hcnt, hrun, hterm, hout⟩ := slsqpLoop_exit f kernel fuel 0 (f x)
  refine ⟨rfl, ?_, ?_, ?_, ?_, ⟨j, hj1, hj2, ?_, ?_, ?_, ?_⟩⟩
  · simp only [runDriver, List.countP_cons, List.countP_append, isEvalF,
      isKernMode, c1]
    simp
  · simp only [runDriver, List.countP_cons, List.countP_append, isEvalC,
      isKernMode, c2]
    simp
  · simp only [runDriver, List.countP_cons, List.countP_append, isEvalG,
      isKernMode, c3]
    simp
  · simp only [runDriver, List.countP_cons, List.countP_append, isEvalA,
      isKernMode, c4]
    simp
  · simp [runDriver, List.countP_cons, List.countP_append, isKern, hcnt]
  · intro i hi
    simpa using hrun i hi
  · intro hle
    exact hterm hle
  · simpa using hout

/-! ### Constraint triage errors -/

theorem triage_malformed :
    ∀ (specs : List ConSpec) (ic : ℕ)
      (fdJac : (List ℚ → List ℚ) → List ℚ → List (List ℚ)),
      (∃ c ∈ specs, malformedSpec c = true) →
      ∃ e, triageCons ic specs fdJac = .error e ∧ isConfigError e = true := by
  intro specs
  induction specs with
  | nil =>
    intro ic fdJac h
    simp at h
  | cons con rest ih =>
    intro ic fdJac h
    match hc : con.ctype with
    | none =>
      exact ⟨.keyErrorNoType ic, by simp [triageCons, hc], rfl⟩
    | some s =>
      by_cases ht : s.toLower = "eq" ∨ s.toLower = "ineq"
      · match hf : con.f with
        | none =>
          refine ⟨.valueErrorNoFun ic, ?_, rfl⟩
          simp [triageCons, hc, ht, hf]
        | some fn =>
          have hrest : ∃ c ∈ rest, malformedSpec c = true := by
            rcases h with ⟨c, hmem, hmal⟩
            rcases List.mem_cons.mp hmem with hcc | hmem'
            · exfalso
              rw [hcc] at hmal
              rw [malformedSpec, hc] at hmal
              rcases ht with he | he <;> simp [he, hf] at hmal
            · exact ⟨c, hmem', hmal⟩
          obtain ⟨e, he, hce⟩ := ih (ic + 1) fdJac hrest
          refine ⟨e, ?_, hce⟩
          simp only [triageCons, hc, ht, if_true, hf, he]
      · refine ⟨.valueErrorUnknownType ic, ?_, rfl⟩
        simp [triageCons, hc, ht]

/-- Claim C6: whenever the initial clip succeeds and some constraint
specification is malformed (missing kind, unrecognized kind after
lower-casing, or missing residual function), the optimize operation fails
with one of the configuration errors, with an empty event trace — so
before any objective or constraint evaluation. -/
theorem malformed_constraint_config_error (f : List ℚ → ℚ) (x0 xclip : List ℚ)
    (bounds : Option (List (Option ℚ × Option ℚ))) (cargs : ConstraintsArg)
    (maxiter : ℤ) (fdJac : (List ℚ → List ℚ) → List ℚ → List (List ℚ))
    (kernel : ℕ → KernelOut) (fuel : ℕ)
    (hclip : clipPhase x0 bounds = some xclip)
    (hmal : ∃ c ∈ normalizeConstraintsArg cargs, malformedSpec c = true) :
    ∃ e, minimizeSlsqp f x0 bounds cargs maxiter fdJac kernel fuel =
        ([], .error e) ∧ isConfigError e = true := by
  obtain ⟨e, he, hce⟩ :=
    triage_malformed (normalizeConstraintsArg cargs) 0 fdJac hmal
  refine ⟨e, ?_, hce⟩
  simp [minimizeSlsqp, hclip, he]

/-- Witness for C6: a constraint dict with no keys at all. -/
theorem malformed_constraint_config_error_witness :
    ∃ e, minimizeSlsqp f0 [0] none (.seq [⟨none, none, none⟩]) 100 fd0 kern0 1 =
        ([], .error e) ∧ isConfigError e = true :=
  malformed_constraint_config_error f0 [0] [0] none (.seq [⟨none, none, none⟩])
    100 fd0 kern0 1 rfl ⟨⟨none, none, none⟩, List.mem_singleton_self _, rfl⟩

/-- Claim C5: whenever the clip of the initial guess succeeds, the first
evaluation event of the whole run (if any) is at the clipped iterate —
every evaluation is preceded by the clamp of line 60 — the clamp really
puts each component inside a respected `[lower, upper]` pair, and in the
concrete instance `bounds = [(0, 10)]`, `x0 = [-5]` the point given to
the first function evaluation is `[0]`. -/
theorem initial_clip_before_eval (f : List ℚ → ℚ) (x0 xclip : List ℚ)
    (bounds : Option (List (Option ℚ × Option ℚ))) (cargs : ConstraintsArg)
    (maxiter : ℤ) (fdJac : (List ℚ → List ℚ) → List ℚ → List (List ℚ))
    (kernel : ℕ → KernelOut) (fuel : ℕ)
    (hclip : clipPhase x0 bounds = some xclip) :
    (∀ p, ((minimizeSlsqp f x0 bounds cargs maxiter fdJac kernel
        fuel).1.filterMap evPoint).head? = some p → p = xclip) ∧
    (∀ l u v : ℚ, l ≤ u →
      l ≤ clipComp (some l, some u) v ∧ clipComp (some l, some u) v ≤ u) ∧
    (clipPhase [-5] (some [(some 0, some 10)]) = some [0]) ∧
    (((minimizeSlsqp f0 [-5] (some [(some 0, some 10)]) (.seq []) 100 fd0
        kern0 1).1.filterMap evPoint).head? = some [0]) := by
  refine ⟨?_, ?_, by decide, by decide⟩
  · intro p hp
    cases htri : triageCons 0 (normalizeConstraintsArg cargs) fdJac with
    | error e =>
      simp [minimizeSlsqp, hclip, htri] at hp
    | ok cons =>
      simp only [minimizeSlsqp, hclip, htri] at hp
      cases hL : cons.eq ++ cons.ineq with
      | nil =>
        split_ifs at hp
        · simp [hL] at hp
        · split at hp
          · simp [hL] at hp
          · simp [hL, runDriver, evPoint] at hp
            exact hp.symm
      | cons hd tl =>
        split_ifs at hp
        · simp [hL, evPoint] at hp
          exact hp.symm
        · split at hp
          · simp [hL, evPoint] at hp
            exact hp.symm
          · simp [hL, runDriver, evPoint] at hp
            exact hp.symm
  · intro l u v h
    constructor
    · exact le_min (le_max_right v l) h
    · exact min_le_right _ _

/-- Witness for C5 at the spec's concrete instance. -/
theorem initial_clip_before_eval_witness :
    (∀ p, ((minimizeSlsqp f0 [-5] (some [(some 0, some 10)]) (.seq []) 100 fd0
        kern0 1).1.filterMap evPoint).head? = some p → p = [0]) ∧
    (∀ l u v : ℚ, l ≤ u →
      l ≤ clipComp (some l, some u) v ∧ clipComp (some l, some u) v ≤ u) ∧
    (clipPhase [-5] (some [(some 0, some 10)]) = some [0]) ∧
    (((minimizeSlsqp f0 [-5] (some [(some 0, some 10)]) (.seq []) 100 fd0
        kern0 1).1.filterMap evPoint).head? = some [0]) :=
  initial_clip_before_eval f0 [-5] [0] (some [(some 0, some 10)]) (.seq [])
    100 fd0 kern0 1 (by decide)

/-! ### Bounds validation -/

theorem npClip_none (x0 : List ℚ) (bnds : List (Option ℚ × Option ℚ))
    (h1 : x0.length ≠ bnds.length) (h2 : x0.length ≠ 1)
    (h3 : bnds.length ≠ 1) : npClip x0 bnds = none := by
  simp [npClip, h1, h2, h3]

/-- Counterexample to claim C7 as stated: `x0 = [-5]` with the length-2
bounds list `[(0,10), (0,10)]` raises nothing at all — `np.clip`
broadcasts the length-1 iterate over the bounds (line 60), the variable
count is then taken from the broadcast result (line 136), the check at
line 158 passes, and the run completes with a success result instead of a
dimension error. -/
theorem bounds_mismatch_no_error :
    ([(-5 : ℚ)]).length ≠
      ([((some 0 : Option ℚ), (some 10 : Option ℚ)),
        (some 0, some 10)]).length ∧
    isOkE (minimizeSlsqp f0 [-5]
      (some [(some 0, some 10), (some 0, some 10)])
      (.seq []) 100 fd0 kern0 1).2 = true := by decide

/-- Claim C7, amended: a nonempty bounds list of length `k` against an
initial guess of length `p` fails before any kernel invocation with the
numpy broadcast `ValueError` when `k ≠ p`, `k ≠ 1` and `p ≠ 1` (the
clip of line 60 rejects it); with the dimension error of line 159 when
the clip succeeds but `k` differs from the length of the clipped iterate
(that is, `k = 1 ≠ p`; when `p = 1 ≠ k` the problem silently becomes
`k`-dimensional instead); and with `ValueError` when the lengths agree
and some pair has `lower > upper`.  The latter two assume the constraint
triage and the workspace allocation succeeded, which precede the bounds
check in the source. -/
theorem bounds_validation_behavior :
    (∀ (f : List ℚ → ℚ) (x0 : List ℚ) (bnds : List (Option ℚ × Option ℚ))
        (cargs : ConstraintsArg) (maxiter : ℤ)
        (fdJac : (List ℚ → List ℚ) → List ℚ → List (List ℚ))
        (kernel : ℕ → KernelOut) (fuel : ℕ),
      bnds ≠ [] → x0.length ≠ bnds.length → x0.length ≠ 1 → bnds.length ≠ 1 →
      minimizeSlsqp f x0 (some bnds) cargs maxiter fdJac kernel fuel =
        ([], .error .broadcastValueError)) ∧
    (∀ (f : List ℚ → ℚ) (x0 xclip : List ℚ)
        (bnds : List (Option ℚ × Option ℚ)) (cargs : ConstraintsArg)
        (cons : ConGroups) (maxiter : ℤ)
        (fdJac : (List ℚ → List ℚ) → List ℚ → List (List ℚ))
        (kernel : ℕ → KernelOut) (fuel : ℕ),
      bnds ≠ [] →
      clipPhase x0 (some bnds) = some xclip →
      triageCons 0 (normalizeConstraintsArg cargs) fdJac = .ok cons →
      ¬ len_w xclip.length
          ((eqDims cons xclip).sum + (ineqDims cons xclip).sum)
          (eqDims cons xclip).sum < 0 →
      bnds.length ≠ xclip.length →
      ((minimizeSlsqp f x0 (some bnds) cargs maxiter fdJac kernel fuel).2 =
          .error .indexErrorBoundsLength ∧
        (minimizeSlsqp f x0 (some bnds) cargs maxiter fdJac kernel
          fuel).1.countP isKern = 0)) ∧
    (∀ (f : List ℚ → ℚ) (x0 xclip : List ℚ)
        (bnds : List (Option ℚ × Option ℚ)) (cargs : ConstraintsArg)
        (cons : ConGroups) (maxiter : ℤ)
        (fdJac : (List ℚ → List ℚ) → List ℚ → List (List ℚ))
        (kernel : ℕ → KernelOut) (fuel : ℕ),
      bnds ≠ [] →
      clipPhase x0 (some bnds) = some xclip →
      triageCons 0 (normalizeConstraintsArg cargs) fdJac = .ok cons →
      ¬ len_w xclip.length
          ((eqDims cons xclip).sum + (ineqDims cons xclip).sum)
          (eqDims cons xclip).sum < 0 →
      bnds.length = xclip.length →
      bnds.any boundsCheck.badPair = true →
      ((minimizeSlsqp f x0 (some bnds) cargs maxiter fdJac kernel fuel).2 =
          .error .valueErrorBadBounds ∧
        (minimizeSlsqp f x0 (some bnds) cargs maxiter fdJac kernel
          fuel).1.countP isKern = 0)) := by
  refine ⟨?_, ?_, ?_⟩
  · intro f x0 bnds cargs maxiter fdJac kernel fuel hne h1 h2 h3
    match bnds, hne with
    | b :: bs, _ =>
      simp [minimizeSlsqp, clipPhase, npClip_none x0 (b :: bs) h1 h2 h3]
  · intro f x0 xclip bnds cargs cons maxiter fdJac kernel fuel hne hclip htri
      hw hlen
    match bnds, hne with
    | b :: bs, _ =>
      simp only [minimizeSlsqp, hclip, htri, if_neg hw]
      have hbc : boundsCheck (some (b :: bs)) xclip.length =
          .error .indexErrorBoundsLength := by
        simp only [boundsCheck]
        rw [if_pos hlen]
      rw [hbc]
      constructor
      · rfl
      · simp [List.countP_map, isKern]
  · intro f x0 xclip bnds cargs cons maxiter fdJac kernel fuel hne hclip htri
      hw hlen hbad
    match bnds, hne with
    | b :: bs, _ =>
      simp only [minimizeSlsqp, hclip, htri, if_neg hw]
      have hbc : boundsCheck (some (b :: bs)) xclip.length =
          .error .valueErrorBadBounds := by
        simp only [boundsCheck]
        rw [if_neg (not_not_intro hlen), if_pos hbad]
      rw [hbc]
      constructor
      · rfl
      · simp [List.countP_map, isKern]

/-- Witness for the amended C7: a two-variable guess with one bounds pair
is rejected with the dimension error before any kernel call. -/
theorem bounds_validation_behavior_witness :
    (minimizeSlsqp f0 [1, 2] (some [(some 0, some 1)]) (.seq []) 100 fd0
        kern0 1).2 = .error .indexErrorBoundsLength ∧
    (minimizeSlsqp f0 [1, 2] (some [(some 0, some 1)]) (.seq []) 100 fd0
        kern0 1).1.countP isKern = 0 :=
  bounds_validation_behavior.2.1 f0 [1, 2] [1, 1] [(some 0, some 1)]
    (.seq []) ⟨[], []⟩ 100 fd0 kern0 1 (by decide) (by decide) rfl
    (by decide) (by decide)

/-- Claim C8: any run that returns a result has `success` true exactly
when `status` is 0 and carries `exit_modes` of the final mode as its
message; when the terminal mode lies in `{2..9}` the flag is false and
the message is one of the fixed human-readable strings; and the result
still carries the final iterate, objective value and mode of the
iteration driver. -/
theorem result_status_success (f : List ℚ → ℚ) (x0 xclip : List ℚ)
    (bounds : Option (List (Option ℚ × Option ℚ))) (cargs : ConstraintsArg)
    (cons : ConGroups) (maxiter : ℤ)
    (fdJac : (List ℚ → List ℚ) → List ℚ → List (List ℚ))
    (kernel : ℕ → KernelOut) (fuel : ℕ) (res : SlsqpResult)
    (hclip : clipPhase x0 bounds = some xclip)
    (htri : triageCons 0 (normalizeConstraintsArg cargs) fdJac = .ok cons)
    (hok : (minimizeSlsqp f x0 bounds cargs maxiter fdJac kernel fuel).2 =
      .ok res) :
    ((res.success = true) ↔ res.status = 0) ∧
    (res.message = exit_modes res.status) ∧
    (2 ≤ res.status → res.status ≤ 9 →
      res.success = false ∧ (exit_modes res.status).isSome = true) ∧
    (res.x = (runDriver f xclip kernel (initialMajiter maxiter) fuel).out.x) ∧
    (res.fx = (runDriver f xclip kernel (initialMajiter maxiter) fuel).fx) ∧
    (res.status =
      (runDriver f xclip kernel (initialMajiter maxiter) fuel).out.mode) := by
  simp only [minimizeSlsqp, hclip, htri] at hok
  split_ifs at hok
  split at hok
  · simp at hok
  · have hres := (Except.ok.inj hok).symm
    subst hres
    refine ⟨by simp, rfl, ?_, rfl, rfl, rfl⟩
    intro h2 h9
    simp only [] at h2 h9
    constructor
    · simp only [decide_eq_false_iff_not]
      omega
    · have hcase : (runDriver f xclip kernel (initialMajiter maxiter)
          fuel).out.mode = 2 ∨
          (runDriver f xclip kernel (initialMajiter maxiter) fuel).out.mode = 3 ∨
          (runDriver f xclip kernel (initialMajiter maxiter) fuel).out.mode = 4 ∨
          (runDriver f xclip kernel (initialMajiter maxiter) fuel).out.mode = 5 ∨
          (runDriver f xclip kernel (initialMajiter maxiter) fuel).out.mode = 6 ∨
          (runDriver f xclip kernel (initialMajiter maxiter) fuel).out.mode = 7 ∨
          (runDriver f xclip kernel (initialMajiter maxiter) fuel).out.mode = 8 ∨
          (runDriver f xclip kernel (initialMajiter maxiter) fuel).out.mode = 9 := by
        omega
      rcases hcase with h | h | h | h | h | h | h | h <;> simp [exit_modes, h]

/-- Witness for C8 against a kernel that terminates with mode 2. -/
theorem result_status_success_witness :
    ((resK2.success = true) ↔ resK2.status = 0) ∧
    (resK2.message = exit_modes resK2.status) ∧
    (2 ≤ resK2.status → resK2.status ≤ 9 →
      resK2.success = false ∧ (exit_modes resK2.status).isSome = true) ∧
    (resK2.x = (runDriver f0 [0] kern2 (initialMajiter 100) 0).out.x) ∧
    (resK2.fx = (runDriver f0 [0] kern2 (initialMajiter 100) 0).fx) ∧
    (resK2.status = (runDriver f0 [0] kern2 (initialMajiter 100) 0).out.mode) :=
  result_status_success f0 [0] [0] none (.seq []) ⟨[], []⟩ 100 fd0 kern2 0
    resK2 rfl rfl rfl
